import Mathlib

/-
Shallow embedding of the FluffyTagProcessor core
(src/fluffytagprocessor/processor.py).

The scanner state of the Python class FluffyTagProcessor is modelled as a
record ProcState; external callbacks (handlers, streaming callbacks,
lifecycle callbacks, the untagged-content handler, the error handler) are
modelled as total and observable only through a trace of events appended to
the state.  Exceptions raised by the processor itself (TagProcessorError)
are modelled as an Option Err result; Python in-place mutation up to the
raise point is reflected by returning the mutated state together with the
error.  The Python tag stack is a list with the top at the end; here the
top is the head of the list, which is the same stack up to reversal.
The informational fields parent, start_time and is_collecting of
TagContext are never read by the scanning logic and are omitted.
-/

/-- The double-quote character. -/
def dquote : Char := '"'

/-- The single-quote character (written via its code point). -/
def squote : Char := Char.ofNat 39

/-- The opening brace character (written via its code point). -/
def obrace : Char := Char.ofNat 123

/-- The closing brace character (written via its code point). -/
def cbrace : Char := Char.ofNat 125

/-- The Python str.isspace character set, which is what str.strip, the
no-separator str.split and the regex class backslash-s (on str patterns)
all use: tab through carriage return (9-13), file through unit separator
(28-31), space (32), next line (133), no-break space (160), ogham space
mark (5760), en quad through hair space (8192-8202), line separator
(8232), paragraph separator (8233), narrow no-break space (8239), medium
mathematical space (8287) and ideographic space (12288). -/
def pyIsSpace (c : Char) : Bool :=
  decide ((9 ≤ c.toNat ∧ c.toNat ≤ 13) ∨ (28 ≤ c.toNat ∧ c.toNat ≤ 32) ∨
    c.toNat = 133 ∨ c.toNat = 160 ∨ c.toNat = 5760 ∨
    (8192 ≤ c.toNat ∧ c.toNat ≤ 8202) ∨ c.toNat = 8232 ∨ c.toNat = 8233 ∨
    c.toNat = 8239 ∨ c.toNat = 8287 ∨ c.toNat = 12288)

/-- Python str.strip: remove leading and trailing whitespace. -/
def pyStrip (cs : List Char) : List Char :=
  ((cs.dropWhile pyIsSpace).reverse.dropWhile pyIsSpace).reverse

/-- Python str.split with maxsplit equal to 1 and no separator:
skip leading whitespace, take the first whitespace-delimited word, skip the
separating whitespace, and return the (non-stripped) remainder if any. -/
def pySplit1 (cs : List Char) : List (List Char) :=
  let cs := cs.dropWhile pyIsSpace
  if cs = [] then []
  else
    let w := cs.takeWhile (fun c => !(pyIsSpace c))
    let rest := (cs.dropWhile (fun c => !(pyIsSpace c))).dropWhile pyIsSpace
    if rest = [] then [w] else [w, rest]

/-- The regex class backslash-w (ASCII part): letters, digits, underscore. -/
def isWordChar (c : Char) : Bool := c.isAlphanum || c == '_'

/-- Configuration of a registered tag (Python dataclass TagConfig).
The callable fields are modelled by presence flags; the main handler is
validated to be callable at registration time and is always present. -/
structure TagConfig where
  streamContent : Bool
  processNested : Bool
  hasStreamingCallback : Bool
  allowsNestedOfSameType : Bool
  hasOnTagStart : Bool
  hasOnTagComplete : Bool
deriving DecidableEq, Repr

/-- A currently open tag (Python dataclass TagContext, semantic fields). -/
structure TagContext where
  name : String
  attributes : List (String × String)
  content : List Char
  config : Option TagConfig
deriving DecidableEq, Repr

/-- Structural errors raised by the processor (TagProcessorError values,
discriminated by their message). -/
inductive Err where
  | unexpectedClosing (name : String)
  | mismatchedClosing (expected received : String)
  | nestedViolation (name : String)
  | emptyTagToken
  | nonStringContent
deriving DecidableEq, Repr

/-- Observable external effects: each callback invocation the processor
performs, in order. -/
inductive Event where
  | untagged (content : String)
  | tagStart (name : String) (attrs : List (String × String))
  | streaming (name : String) (attrs : List (String × String)) (c : Char)
  | handle (name : String) (attrs : List (String × String)) (content : String)
  | tagComplete (name : String) (attrs : List (String × String)) (content : String)
  | errorDelivered (e : Err)
deriving DecidableEq, Repr

/-- The full mutable state of a FluffyTagProcessor instance, plus the trace
of callback invocations performed so far. -/
structure ProcState where
  tagConfigs : List (String × TagConfig)
  tagStack : List TagContext
  partialBuffer : List String
  untaggedContent : List Char
  inTag : Bool
  currentTag : List Char
  jsonDepth : Nat
  inQuotes : Bool
  quoteChar : String
  hasUntaggedHandler : Bool
  hasErrorHandler : Bool
  debug : Bool
  autoProcessUntagged : Bool
  autoProcessThreshold : Nat
  trace : List Event
deriving DecidableEq, Repr

/-- Registry lookup (Python dict get on tag_configs). -/
def lookupConfig : List (String × TagConfig) → String → Option TagConfig
  | [], _ => none
  | (k, v) :: rest, name => if k == name then some v else lookupConfig rest name

/-- Try to match one attribute at the start of the input, following the
regex used by the method FluffyTagProcessor._parse_attributes:
word chars, optional whitespace, equals sign, optional whitespace, a quote,
value chars (anything except that quote and newline), the same quote.
Returns the pair and the rest of the input after the match. -/
def tryMatchAttr (cs : List Char) : Option ((String × String) × List Char) :=
  let w := cs.takeWhile isWordChar
  if w = [] then none
  else
    let r1 := (cs.dropWhile isWordChar).dropWhile pyIsSpace
    match r1 with
    | '=' :: r2 =>
      match r2.dropWhile pyIsSpace with
      | q :: r3 =>
        if q = dquote ∨ q = squote then
          let v := r3.takeWhile (fun c => !(c == q) && !(c == '\n'))
          match r3.dropWhile (fun c => !(c == q) && !(c == '\n')) with
          | q2 :: r4 => if q2 = q then some ((String.mk w, String.mk v), r4) else none
          | [] => none
        else none
      | [] => none
    | _ => none

/-- Scan the attribute text left to right for non-overlapping matches, as
re.findall does: on failure advance one character. Fuel-indexed; the fuel
is initialised to the input length, which always suffices because each
step consumes at least one character. -/
def scanAttrsAux : Nat → List Char → List (String × String)
  | 0, _ => []
  | _, [] => []
  | n + 1, c :: rest =>
    match tryMatchAttr (c :: rest) with
    | some (kv, r) => kv :: scanAttrsAux n r
    | none => scanAttrsAux n rest

/-- All attribute matches found in the given text, in order. -/
def scanAttrs (cs : List Char) : List (String × String) :=
  scanAttrsAux cs.length cs

/-- Insert into an insertion-ordered association list with the update
semantics of a Python dict: an existing key keeps its position and gets the
new value, a new key is appended. -/
def dictInsert (d : List (String × String)) (k v : String) : List (String × String) :=
  if d.any (fun p => p.1 == k) then
    d.map (fun p => if p.1 == k then (k, v) else p)
  else d ++ [(k, v)]

/-- FluffyTagProcessor._parse_attributes: collect the regex matches into a
dict, last write wins on duplicate names. -/
def parseAttributes (attrText : String) : List (String × String) :=
  (scanAttrs attrText.data).foldl (fun d kv => dictInsert d kv.1 kv.2) []

/-- FluffyTagProcessor._process_untagged_content: strip the content and, if
it is non-empty and an untagged-content handler is set, invoke it. -/
def processUntagged (s : ProcState) (content : List Char) : ProcState :=
  if pyStrip content ≠ [] ∧ s.hasUntaggedHandler then
    { s with trace := s.trace ++ [Event.untagged (String.mk (pyStrip content))] }
  else s

/-- FluffyTagProcessor._handle_opening_tag. An unregistered tag is a
diagnostic no-op.  A registered tag whose config forbids nesting of the
same type fails if any open context has the same name (nothing pushed).
Otherwise the on-tag-start callback fires (if configured) and the new
context is pushed. -/
def handleOpeningTag (s : ProcState) (name : String)
    (attrs : List (String × String)) : ProcState × Option Err :=
  match lookupConfig s.tagConfigs name with
  | none => (s, none)
  | some cfg =>
    if cfg.allowsNestedOfSameType = false ∧ s.tagStack.any (fun ctx => ctx.name == name) then
      (s, some (Err.nestedViolation name))
    else if cfg.hasOnTagStart then
      ({ s with trace := s.trace ++ [Event.tagStart name attrs],
                tagStack :=
          { name := name, attributes := attrs, content := [], config := some cfg }
            :: s.tagStack }, none)
    else
      ({ s with tagStack :=
          { name := name, attributes := attrs, content := [], config := some cfg }
            :: s.tagStack }, none)

/-- FluffyTagProcessor._handle_self_closing_tag. For a registered tag:
on-tag-start callback (if configured), then the handler with empty
content, then on-tag-complete (if configured); no context is pushed. -/
def handleSelfClosingTag (s : ProcState) (name : String)
    (attrs : List (String × String)) : ProcState × Option Err :=
  match lookupConfig s.tagConfigs name with
  | none => (s, none)
  | some cfg =>
    if cfg.hasOnTagStart then
      if cfg.hasOnTagComplete then
        ({ s with trace := s.trace ++ [Event.tagStart name attrs,
            Event.handle name attrs "", Event.tagComplete name attrs ""] }, none)
      else
        ({ s with trace := s.trace ++ [Event.tagStart name attrs,
            Event.handle name attrs ""] }, none)
    else
      if cfg.hasOnTagComplete then
        ({ s with trace := s.trace ++ [Event.handle name attrs "",
            Event.tagComplete name attrs ""] }, none)
      else
        ({ s with trace := s.trace ++ [Event.handle name attrs ""] }, none)

/-- FluffyTagProcessor._handle_closing_tag. Empty stack: error. Matching
top: pop, invoke the handler with the accumulated content, then
on-tag-complete (if configured). Otherwise: mismatched-closing error with
both names, state untouched. -/
def handleClosingTag (s : ProcState) (name : String) : ProcState × Option Err :=
  match s.tagStack with
  | [] => (s, some (Err.unexpectedClosing name))
  | last :: rest =>
    if last.name = name then
      match last.config with
      | some cfg =>
        if cfg.hasOnTagComplete then
          ({ s with
              tagStack := rest
              trace := s.trace ++
                [Event.handle name last.attributes (String.mk last.content),
                 Event.tagComplete name last.attributes (String.mk last.content)] }, none)
        else
          ({ s with
              tagStack := rest
              trace := s.trace ++
                [Event.handle name last.attributes (String.mk last.content)] }, none)
      | none => ({ s with tagStack := rest }, none)
    else (s, some (Err.mismatchedClosing last.name name))

/-- FluffyTagProcessor._process_complete_tag: strip the raw token and
classify it as closing, self-closing or opening; extract the name and the
attribute text accordingly.  An empty name position (Python IndexError on
parts[0], wrapped by the error boundary) is the emptyTagToken error. -/
def processCompleteTag (s : ProcState) (tagContent : String) : ProcState × Option Err :=
  if (pyStrip tagContent.data).take 2 = ['<', '/'] then
    handleClosingTag s (String.mk (pyStrip (((pyStrip tagContent.data).drop 2).dropLast)))
  else if (pyStrip tagContent.data).reverse.take 2 = ['>', '/'] then
    match pySplit1 (pyStrip ((((pyStrip tagContent.data).drop 1).dropLast).dropLast)) with
    | [] => (s, some Err.emptyTagToken)
    | [w] => handleSelfClosingTag s (String.mk w) []
    | w :: r :: _ => handleSelfClosingTag s (String.mk w) (parseAttributes (String.mk r))
  else
    match pySplit1 (pyStrip (((pyStrip tagContent.data).drop 1).dropLast)) with
    | [] => (s, some Err.emptyTagToken)
    | [w] => handleOpeningTag s (String.mk w) []
    | w :: r :: _ => handleOpeningTag s (String.mk w) (parseAttributes (String.mk r))

/-- The quote-tracking step at the top of FluffyTagProcessor._process_char:
a quote character while json depth is positive toggles quoting; the
character that opened the quotes is recorded and only that character
closes them. -/
def quoteStep (s : ProcState) (c : Char) : ProcState :=
  if (c = dquote ∨ c = squote) ∧ 0 < s.jsonDepth then
    if s.inQuotes = false then
      { s with inQuotes := true, quoteChar := String.singleton c }
    else if String.singleton c = s.quoteChar then
      { s with inQuotes := false, quoteChar := "" }
    else s
  else s

/-- The json-depth step of FluffyTagProcessor._process_char: outside
quotes, an opening brace increments the depth and a closing brace
decrements it, floored at zero (Nat subtraction). -/
def depthStep (s : ProcState) (c : Char) : ProcState :=
  if s.inQuotes = false then
    if c = obrace then { s with jsonDepth := s.jsonDepth + 1 }
    else if c = cbrace then { s with jsonDepth := s.jsonDepth - 1 }
    else s
  else s

/-- The content branch of FluffyTagProcessor._process_char: with a
non-empty stack the character is appended to the top context content and
the streaming callback fires if configured; otherwise it is appended to
the untagged buffer. -/
def bodyOrUntagged (s : ProcState) (c : Char) : ProcState :=
  match s.tagStack with
  | ctx :: rest =>
    match ctx.config with
    | some cfg =>
      if cfg.hasStreamingCallback then
        { s with tagStack := { ctx with content := ctx.content ++ [c] } :: rest,
                 trace := s.trace ++ [Event.streaming ctx.name ctx.attributes c] }
      else { s with tagStack := { ctx with content := ctx.content ++ [c] } :: rest }
    | none => { s with tagStack := { ctx with content := ctx.content ++ [c] } :: rest }
  | [] => { s with untaggedContent := s.untaggedContent ++ [c] }

/-- The auto-flush check at the end of FluffyTagProcessor._process_char:
when enabled and the untagged buffer is strictly longer than the
threshold, flush and clear it. -/
def autoFlushStep (s : ProcState) : ProcState :=
  if s.autoProcessUntagged = true ∧ s.autoProcessThreshold < s.untaggedContent.length then
    { processUntagged s s.untaggedContent with untaggedContent := [] }
  else s

/-- FluffyTagProcessor._process_char.  The quote and depth steps always
run; a tag-opening angle bracket outside quotes at depth zero flushes the
untagged buffer and enters tag mode (returning early, as the Python code
does); inside a tag token the character accumulates and a closing angle
bracket completes the token (on error, the raise skips the reset of
in_tag/current_tag and the auto-flush check); otherwise the character is
content.  The state mutated up to a raise is returned with the error. -/
def procCharCore (s : ProcState) (c : Char) : ProcState × Option Err :=
  if c = '<' ∧ s.inQuotes = false ∧ s.jsonDepth = 0 then
    if s.untaggedContent ≠ [] then
      ({ processUntagged s s.untaggedContent with
          untaggedContent := [], inTag := true, currentTag := ['<'] }, none)
    else ({ s with inTag := true, currentTag := ['<'] }, none)
  else if s.inTag then
    if c = '>' then
      match processCompleteTag { s with currentTag := s.currentTag ++ [c] }
          (String.mk (s.currentTag ++ [c])) with
      | (s2, none) => (autoFlushStep { s2 with inTag := false, currentTag := [] }, none)
      | (s2, some e) => (s2, some e)
    else (autoFlushStep { s with currentTag := s.currentTag ++ [c] }, none)
  else (autoFlushStep (bodyOrUntagged s c), none)

/-- FluffyTagProcessor._process_char is the quote and depth tracking steps
followed by the tag-marker/tag-token/content logic. -/
def processChar (s0 : ProcState) (c : Char) : ProcState × Option Err :=
  procCharCore (depthStep (quoteStep s0 c) c) c

/-- FluffyTagProcessor._process_token_internal, with Python exception
semantics: characters are processed in order and a raised error skips the
remaining characters of the token, keeping the state mutated so far. -/
def runChars : ProcState → List Char → ProcState × Option Err
  | s, [] => (s, none)
  | s, c :: cs =>
    match processChar s c with
    | (s1, none) => runChars s1 cs
    | (s1, some e) => (s1, some e)

/-- Character processing ignoring the per-token error boundary: the state
reached by executing any given sequence of individual character steps. -/
def processChars (s : ProcState) (cs : List Char) : ProcState :=
  cs.foldl (fun s c => (processChar s c).1) s

/-- FluffyTagProcessor.process_token under the error_handler decorator:
empty or whitespace-only tokens are a no-op; otherwise the characters run
and any raised error is delivered to the configured error handler, or
silently suppressed when none is configured. -/
def processTokenSt (s : ProcState) (t : String) : ProcState :=
  if t = "" then s
  else if pyStrip t.data = [] then s
  else
    match runChars s t.data with
    | (s1, none) => s1
    | (s1, some e) =>
      if s1.hasErrorHandler then
        { s1 with trace := s1.trace ++ [Event.errorDelivered e] }
      else s1

/-- FluffyTagProcessor.process_tokens: process each token in order. -/
def processTokensSt (s : ProcState) (ts : List String) : ProcState :=
  ts.foldl processTokenSt s

/-- A Python value passed where a string is expected: either an actual
string or a non-string value with the given truthiness. -/
inductive PyInput where
  | str (t : String)
  | nonStr (truthy : Bool)
deriving DecidableEq, Repr

/-- FluffyTagProcessor.process_token at the API boundary: the guard
(not token or not isinstance(token, str)) silently returns self for
non-string input before any other check runs. -/
def processTokenPy (s : ProcState) : PyInput → ProcState
  | PyInput.nonStr _ => s
  | PyInput.str t => processTokenSt s t

/-- FluffyTagProcessor.process_string: raises TagProcessorError for
non-string input (this method is not wrapped by the error-handler
decorator, so the exception propagates to the caller); otherwise it
delegates to process_token. -/
def processStringPy (s : ProcState) : PyInput → Except Err ProcState
  | PyInput.nonStr _ => Except.error Err.nonStringContent
  | PyInput.str t => Except.ok (processTokenSt s t)

/-- FluffyTagProcessor.reset: clear all scanning state, leaving the
registry, the handlers and the configuration fields untouched. -/
def reset (s : ProcState) : ProcState :=
  { s with tagStack := [], partialBuffer := [], untaggedContent := [],
           inTag := false, currentTag := [], jsonDepth := 0,
           inQuotes := false, quoteChar := "" }

/-- The state of a freshly constructed FluffyTagProcessor with the given
registrations (constructor defaults: no handlers, debug off,
auto-processing on with threshold 20). -/
def initState (regs : List (String × TagConfig)) : ProcState :=
  { tagConfigs := regs, tagStack := [], partialBuffer := [],
    untaggedContent := [], inTag := false, currentTag := [], jsonDepth := 0,
    inQuotes := false, quoteChar := "", hasUntaggedHandler := false,
    hasErrorHandler := false, debug := false, autoProcessUntagged := true,
    autoProcessThreshold := 20, trace := [] }

/-- A registration with the keyword defaults of register_handler. -/
def basicConfig : TagConfig :=
  { streamContent := true, processNested := true, hasStreamingCallback := false,
    allowsNestedOfSameType := false, hasOnTagStart := false, hasOnTagComplete := false }

/-- C9: reset clears every piece of scanning state to its initial value
(empty stack, empty untagged and tag-token buffers, in_tag false, json
depth zero, quoting off with the quote character cleared) while leaving
the tag registry and the untagged-content handler exactly as they were. -/
theorem c9_reset_state (s : ProcState) :
    (reset s).tagStack = [] ∧ (reset s).untaggedContent = [] ∧
    (reset s).currentTag = [] ∧ (reset s).partialBuffer = [] ∧
    (reset s).inTag = false ∧ (reset s).jsonDepth = 0 ∧
    (reset s).inQuotes = false ∧ (reset s).quoteChar = "" ∧
    (reset s).tagConfigs = s.tagConfigs ∧
    (reset s).hasUntaggedHandler = s.hasUntaggedHandler := by
  simp [reset]

/-- C7: a closing tag processed while the tag stack is empty yields the
unexpected-closing error (propagated to the error boundary) and leaves
the state completely unchanged; in particular nothing is silently
skipped. -/
theorem c7_unexpected_closing (s : ProcState) (name : String)
    (h : s.tagStack = []) :
    handleClosingTag s name = (s, some (Err.unexpectedClosing name)) := by
  unfold handleClosingTag
  rw [h]

/-- Witness for c7_unexpected_closing at a concrete state. -/
theorem c7_witness :
    handleClosingTag (initState []) "x"
      = (initState [], some (Err.unexpectedClosing "x")) :=
  c7_unexpected_closing (initState []) "x" rfl

/-- C3: a closing tag whose name differs from the name of the top context
yields the mismatched-closing error carrying the expected name (the top
context) and the received name, and returns the state unchanged: the
expected context stays on the stack and no handler event is emitted. -/
theorem c3_mismatched_closing (s : ProcState) (name : String)
    (ctx : TagContext) (rest : List TagContext)
    (hstk : s.tagStack = ctx :: rest) (hne : ¬ ctx.name = name) :
    handleClosingTag s name = (s, some (Err.mismatchedClosing ctx.name name)) := by
  unfold handleClosingTag
  rw [hstk]
  simp [hne]

/-- Witness for c3_mismatched_closing: a stack holding an open tag a and
a closing tag b. -/
theorem c3_witness :
    handleClosingTag
      { initState [] with tagStack :=
          [{ name := "a", attributes := [], content := [], config := some basicConfig }] } "b"
      = ({ initState [] with tagStack :=
          [{ name := "a", attributes := [], content := [], config := some basicConfig }] },
         some (Err.mismatchedClosing "a" "b")) :=
  c3_mismatched_closing _ "b" _ [] rfl (by decide)

/-- C4: opening a tag registered with allowsNestedOfSameType false while
some context with the same name is anywhere on the stack yields the
nested-violation error and returns the state unchanged: no second context
is pushed and no callback event is emitted. -/
theorem c4_nested_violation (s : ProcState) (name : String)
    (attrs : List (String × String)) (cfg : TagConfig)
    (hcfg : lookupConfig s.tagConfigs name = some cfg)
    (hpol : cfg.allowsNestedOfSameType = false)
    (hdup : s.tagStack.any (fun ctx => ctx.name == name) = true) :
    handleOpeningTag s name attrs = (s, some (Err.nestedViolation name)) := by
  unfold handleOpeningTag
  rw [hcfg]
  simp [hpol, hdup]

/-- Witness for c4_nested_violation: tag a already open, opened again. -/
theorem c4_witness :
    handleOpeningTag
      { initState [("a", basicConfig)] with tagStack :=
          [{ name := "a", attributes := [], content := [], config := some basicConfig }] }
      "a" []
      = ({ initState [("a", basicConfig)] with tagStack :=
          [{ name := "a", attributes := [], content := [], config := some basicConfig }] },
         some (Err.nestedViolation "a")) :=
  c4_nested_violation _ "a" [] basicConfig (by decide) (by decide) (by decide)

/-- C5: a self-closing tag of a registered name emits, in this order and
within the same call: the tag-start callback if configured, the handler
invocation with empty content, and the tag-complete callback with empty
content if configured; it pushes no context, so the stack is unchanged,
and it returns no error. -/
theorem c5_self_closing (s : ProcState) (name : String)
    (attrs : List (String × String)) (cfg : TagConfig)
    (h : lookupConfig s.tagConfigs name = some cfg) :
    (handleSelfClosingTag s name attrs).2 = none ∧
    (handleSelfClosingTag s name attrs).1.tagStack = s.tagStack ∧
    (handleSelfClosingTag s name attrs).1.trace =
      s.trace ++ ((if cfg.hasOnTagStart then [Event.tagStart name attrs] else []) ++
        [Event.handle name attrs ""] ++
        (if cfg.hasOnTagComplete then [Event.tagComplete name attrs ""] else [])) := by
  unfold handleSelfClosingTag
  rw [h]
  cases hs : cfg.hasOnTagStart <;> cases hc : cfg.hasOnTagComplete <;> simp [hs, hc]

/-- Witness for c5_self_closing: a registered tag with both lifecycle
callbacks configured, self-closed on a fresh processor. -/
theorem c5_witness :
    (handleSelfClosingTag
        (initState [("s", { basicConfig with hasOnTagStart := true, hasOnTagComplete := true })])
        "s" [("k", "v")]).2 = none ∧
    (handleSelfClosingTag
        (initState [("s", { basicConfig with hasOnTagStart := true, hasOnTagComplete := true })])
        "s" [("k", "v")]).1.tagStack
      = (initState [("s", { basicConfig with hasOnTagStart := true, hasOnTagComplete := true })]).tagStack ∧
    (handleSelfClosingTag
        (initState [("s", { basicConfig with hasOnTagStart := true, hasOnTagComplete := true })])
        "s" [("k", "v")]).1.trace
      = (initState [("s", { basicConfig with hasOnTagStart := true, hasOnTagComplete := true })]).trace ++
        ((if ({ basicConfig with hasOnTagStart := true, hasOnTagComplete := true } : TagConfig).hasOnTagStart
            then [Event.tagStart "s" [("k", "v")]] else []) ++
          [Event.handle "s" [("k", "v")] ""] ++
          (if ({ basicConfig with hasOnTagStart := true, hasOnTagComplete := true } : TagConfig).hasOnTagComplete
            then [Event.tagComplete "s" [("k", "v")] ""] else [])) :=
  c5_self_closing _ "s" [("k", "v")] _ (by decide)

/-- Counterexample to C8 as stated: non-string input to process_token is a
silent no-op, not an error.  Even with an error handler configured, the
call returns the state bit-for-bit unchanged: no error is raised,
delivered or logged (the guard returns self before any error path). -/
theorem c8_counterexample :
    processTokenPy { initState [] with hasErrorHandler := true } (PyInput.nonStr true)
      = { initState [] with hasErrorHandler := true } := rfl

/-- C8 amended: empty or whitespace-only input to process_token is a
no-op; non-string input to process_token is also a silent no-op (the
guard returns self, with no error); non-string input to process_string
raises a TagProcessorError to the caller. -/
theorem c8_nonstring_amended (s : ProcState) (b : Bool) (t : String)
    (ht : pyStrip t.data = []) :
    processTokenPy s (PyInput.nonStr b) = s ∧
    processTokenPy s (PyInput.str t) = s ∧
    processStringPy s (PyInput.nonStr b) = Except.error Err.nonStringContent := by
  refine ⟨rfl, ?_, rfl⟩
  show processTokenSt s t = s
  unfold processTokenSt
  by_cases he : t = ""
  · rw [if_pos he]
  · rw [if_neg he, if_pos ht]

/-- Witness for c8_nonstring_amended at concrete inputs. -/
theorem c8_witness :
    processTokenPy (initState []) (PyInput.nonStr true) = initState [] ∧
    processTokenPy (initState []) (PyInput.str "  ") = initState [] ∧
    processStringPy (initState []) (PyInput.nonStr true) = Except.error Err.nonStringContent :=
  c8_nonstring_amended (initState []) true "  " (by decide)

/-- An error raised while processing a token skips the remaining
characters of that token (Python exception propagation out of the
character loop). -/
theorem runChars_append_some (xs : List Char) : ∀ (s : ProcState) (ys : List Char) (e : Err),
    (runChars s xs).2 = some e → runChars s (xs ++ ys) = runChars s xs := by
  induction xs with
  | nil =>
    intro s ys e h
    simp [runChars] at h
  | cons c cs ih =>
    intro s ys e h
    rcases hp : processChar s c with ⟨s1, oe⟩
    rcases oe with - | e2
    · simp only [List.cons_append, runChars, hp] at h ⊢
      exact ih s1 ys e h
    · simp only [List.cons_append, runChars, hp] at h ⊢

/-- Error-free processing of a token concatenation splits at the
boundary. -/
theorem runChars_append_none (xs : List Char) : ∀ (s : ProcState) (ys : List Char),
    (runChars s xs).2 = none → runChars s (xs ++ ys) = runChars (runChars s xs).1 ys := by
  induction xs with
  | nil =>
    intro s ys _
    simp [runChars]
  | cons c cs ih =>
    intro s ys h
    rcases hp : processChar s c with ⟨s1, oe⟩
    rcases oe with - | e2
    · simp only [List.cons_append, runChars, hp] at h ⊢
      exact ih s1 ys h
    · simp only [runChars, hp] at h
      exact (Option.some_ne_none e2 h).elim

/-- The constructor-set configuration fields of the processor: the
registry, handler presence flags, the debug flag and the auto-processing
settings.  The scanning logic never writes to any of them. -/
def ConfigEq (s s2 : ProcState) : Prop :=
  s2.tagConfigs = s.tagConfigs ∧ s2.hasUntaggedHandler = s.hasUntaggedHandler ∧
  s2.hasErrorHandler = s.hasErrorHandler ∧ s2.debug = s.debug ∧
  s2.autoProcessUntagged = s.autoProcessUntagged ∧
  s2.autoProcessThreshold = s.autoProcessThreshold

theorem configEq_refl (s : ProcState) : ConfigEq s s := by
  simp [ConfigEq]

theorem configEq_trans {a b c : ProcState} (h1 : ConfigEq a b) (h2 : ConfigEq b c) :
    ConfigEq a c := by
  obtain ⟨x1, x2, x3, x4, x5, x6⟩ := h1
  obtain ⟨y1, y2, y3, y4, y5, y6⟩ := h2
  exact ⟨y1.trans x1, y2.trans x2, y3.trans x3, y4.trans x4, y5.trans x5, y6.trans x6⟩

theorem configEq_processUntagged (s : ProcState) (content : List Char) :
    ConfigEq s (processUntagged s content) := by
  unfold processUntagged
  split <;> simp [ConfigEq]

theorem configEq_handleOpeningTag (s : ProcState) (n : String) (a : List (String × String)) :
    ConfigEq s (handleOpeningTag s n a).1 := by
  unfold handleOpeningTag
  cases h : lookupConfig s.tagConfigs n
  · simp [h, ConfigEq]
  · simp only [h]
    split
    · exact configEq_refl s
    · split <;> simp [ConfigEq]

theorem configEq_handleSelfClosingTag (s : ProcState) (n : String) (a : List (String × String)) :
    ConfigEq s (handleSelfClosingTag s n a).1 := by
  unfold handleSelfClosingTag
  cases h : lookupConfig s.tagConfigs n
  · simp [h, ConfigEq]
  · simp only [h]
    split <;> split <;> simp [ConfigEq]

theorem configEq_handleClosingTag (s : ProcState) (n : String) :
    ConfigEq s (handleClosingTag s n).1 := by
  unfold handleClosingTag
  rcases hs : s.tagStack with - | ⟨last, rest⟩
  · simp [hs, ConfigEq]
  · by_cases hn : last.name = n
    · rcases hc : last.config with - | cfg
      · simp [hs, hn, hc, ConfigEq]
      · by_cases hcb : cfg.hasOnTagComplete = true <;> simp [hs, hn, hc, hcb, ConfigEq]
    · simp [hs, hn, ConfigEq]

theorem configEq_processCompleteTag (s : ProcState) (t : String) :
    ConfigEq s (processCompleteTag s t).1 := by
  unfold processCompleteTag
  split
  · exact configEq_handleClosingTag s _
  · split
    · split
      · exact configEq_refl s
      · exact configEq_handleSelfClosingTag s _ _
      · exact configEq_handleSelfClosingTag s _ _
    · split
      · exact configEq_refl s
      · exact configEq_handleOpeningTag s _ _
      · exact configEq_handleOpeningTag s _ _

theorem configEq_bodyOrUntagged (s : ProcState) (c : Char) :
    ConfigEq s (bodyOrUntagged s c) := by
  unfold bodyOrUntagged
  rcases hs : s.tagStack with - | ⟨ctx, rest⟩
  · simp [hs, ConfigEq]
  · rcases hc : ctx.config with - | cfg
    · simp [hs, hc, ConfigEq]
    · by_cases hb : cfg.hasStreamingCallback = true <;> simp [hs, hc, hb, ConfigEq]

theorem configEq_autoFlushStep (s : ProcState) : ConfigEq s (autoFlushStep s) := by
  unfold autoFlushStep
  split
  · exact configEq_trans (configEq_processUntagged s s.untaggedContent) (by simp [ConfigEq])
  · exact configEq_refl s

theorem configEq_quoteStep (s : ProcState) (c : Char) : ConfigEq s (quoteStep s c) := by
  unfold quoteStep
  split <;> try split
  all_goals try split
  all_goals simp [ConfigEq]

theorem configEq_depthStep (s : ProcState) (c : Char) : ConfigEq s (depthStep s c) := by
  unfold depthStep
  split <;> try split
  all_goals try split
  all_goals simp [ConfigEq]

theorem configEq_procCharCore (s : ProcState) (c : Char) :
    ConfigEq s (procCharCore s c).1 := by
  unfold procCharCore
  split
  · split
    · exact configEq_trans (configEq_processUntagged s s.untaggedContent) (by simp [ConfigEq])
    · simp [ConfigEq]
  · split
    · split
      · rcases hp : processCompleteTag { s with currentTag := s.currentTag ++ [c] }
            (String.mk (s.currentTag ++ [c])) with ⟨s2, oe⟩
        have h2 : ConfigEq s s2 := by
          have h3 := configEq_processCompleteTag
            { s with currentTag := s.currentTag ++ [c] } (String.mk (s.currentTag ++ [c]))
          rw [hp] at h3
          exact configEq_trans (by simp [ConfigEq]) h3
        rcases oe with - | e
        · simp only [hp]
          exact configEq_trans h2 (configEq_trans (by simp [ConfigEq]) (configEq_autoFlushStep _))
        · simp only [hp]
          exact h2
      · exact configEq_trans
          (show ConfigEq s { s with currentTag := s.currentTag ++ [c] } by simp [ConfigEq])
          (configEq_autoFlushStep _)
    · exact configEq_trans (configEq_bodyOrUntagged s c) (configEq_autoFlushStep _)

theorem configEq_processChar (s : ProcState) (c : Char) :
    ConfigEq s (processChar s c).1 :=
  configEq_trans
    (configEq_trans (configEq_quoteStep s c) (configEq_depthStep (quoteStep s c) c))
    (configEq_procCharCore (depthStep (quoteStep s c) c) c)

theorem configEq_runChars (cs : List Char) : ∀ s : ProcState, ConfigEq s (runChars s cs).1 := by
  induction cs with
  | nil =>
    intro s
    exact configEq_refl s
  | cons c cs ih =>
    intro s
    rcases hp : processChar s c with ⟨s1, oe⟩
    have h1 : ConfigEq s s1 := by
      have h3 := configEq_processChar s c
      rw [hp] at h3
      exact h3
    rcases oe with - | e
    · simp only [runChars, hp]
      exact configEq_trans h1 (ih s1)
    · simp only [runChars, hp]
      exact h1

/-- Counterexample to C6 as stated: with no error handler configured, an
error raised mid-token aborts the remaining characters of that same
process_token call.  Feeding the single token consisting of an unexpected
closing tag followed by the character x produces exactly the state of
feeding the closing tag alone (the x was never processed), although
processing x from that state would have changed it. -/
theorem c6_counterexample :
    processTokenSt (initState []) "</a>x" = processTokenSt (initState []) "</a>" ∧
    (processChar (processTokenSt (initState []) "</a>") 'x').1
      ≠ processTokenSt (initState []) "</a>" := by
  constructor
  · decide
  · decide

/-- C6 amended: when no error handler is configured, a structural error
raised during a process_token call is suppressed (the call returns the
mutated state as-is, with no error delivered) and does not abort
subsequent process_token calls, which are processed normally from that
state; however, the remaining characters of the token in which the error
occurred are skipped. -/
theorem c6_error_suppression_amended (s : ProcState) (t : String) (ts : List String)
    (cs ds : List Char) (e : Err)
    (hno : s.hasErrorHandler = false)
    (herr : (runChars s cs).2 = some e)
    (ht : ¬ pyStrip t.data = []) :
    runChars s (cs ++ ds) = runChars s cs ∧
    processTokenSt s t = (runChars s t.data).1 ∧
    processTokensSt s (t :: ts) = processTokensSt (processTokenSt s t) ts := by
  refine ⟨runChars_append_some cs s ds e herr, ?_, rfl⟩
  have hte : ¬ t = "" := by
    rintro rfl
    exact ht rfl
  unfold processTokenSt
  rw [if_neg hte, if_neg ht]
  rcases hr : runChars s t.data with ⟨s1, oe⟩
  rcases oe with - | e2
  · simp [hr]
  · have hcc := configEq_runChars t.data s
    rw [hr] at hcc
    have h1 : s1.hasErrorHandler = false := hcc.2.2.1.trans hno
    simp [hr, h1]

/-- Witness for c6_error_suppression_amended: an unexpected closing tag
errors, the rest of its token is skipped, and a following token is still
processed. -/
theorem c6_witness :
    runChars (initState []) ("</a>".data ++ "x".data) = runChars (initState []) "</a>".data ∧
    processTokenSt (initState []) "<b>" = (runChars (initState []) "<b>".data).1 ∧
    processTokensSt (initState []) ["<b>"]
      = processTokensSt (processTokenSt (initState []) "<b>") [] :=
  c6_error_suppression_amended (initState []) "<b>" [] "</a>".data "x".data
    (Err.unexpectedClosing "a") rfl (by decide) (by decide)

/-- The quote and depth tracking fields of the scanner.  Only the quote
and depth steps of character processing write to them. -/
def ScanEq (s s2 : ProcState) : Prop :=
  s2.jsonDepth = s.jsonDepth ∧ s2.inQuotes = s.inQuotes ∧ s2.quoteChar = s.quoteChar

theorem scanEq_refl (s : ProcState) : ScanEq s s := by
  simp [ScanEq]

theorem scanEq_trans {a b c : ProcState} (h1 : ScanEq a b) (h2 : ScanEq b c) :
    ScanEq a c := by
  obtain ⟨x1, x2, x3⟩ := h1
  obtain ⟨y1, y2, y3⟩ := h2
  exact ⟨y1.trans x1, y2.trans x2, y3.trans x3⟩

theorem scanEq_processUntagged (s : ProcState) (content : List Char) :
    ScanEq s (processUntagged s content) := by
  unfold processUntagged
  split <;> simp [ScanEq]

theorem scanEq_handleOpeningTag (s : ProcState) (n : String) (a : List (String × String)) :
    ScanEq s (handleOpeningTag s n a).1 := by
  unfold handleOpeningTag
  cases h : lookupConfig s.tagConfigs n
  · simp [h, ScanEq]
  · simp only [h]
    split
    · exact scanEq_refl s
    · split <;> simp [ScanEq]

theorem scanEq_handleSelfClosingTag (s : ProcState) (n : String) (a : List (String × String)) :
    ScanEq s (handleSelfClosingTag s n a).1 := by
  unfold handleSelfClosingTag
  cases h : lookupConfig s.tagConfigs n
  · simp [h, ScanEq]
  · simp only [h]
    split <;> split <;> simp [ScanEq]

theorem scanEq_handleClosingTag (s : ProcState) (n : String) :
    ScanEq s (handleClosingTag s n).1 := by
  unfold handleClosingTag
  rcases hs : s.tagStack with - | ⟨last, rest⟩
  · simp [hs, ScanEq]
  · by_cases hn : last.name = n
    · rcases hc : last.config with - | cfg
      · simp [hs, hn, hc, ScanEq]
      · by_cases hcb : cfg.hasOnTagComplete = true <;> simp [hs, hn, hc, hcb, ScanEq]
    · simp [hs, hn, ScanEq]

theorem scanEq_processCompleteTag (s : ProcState) (t : String) :
    ScanEq s (processCompleteTag s t).1 := by
  unfold processCompleteTag
  split
  · exact scanEq_handleClosingTag s _
  · split
    · split
      · exact scanEq_refl s
      · exact scanEq_handleSelfClosingTag s _ _
      · exact scanEq_handleSelfClosingTag s _ _
    · split
      · exact scanEq_refl s
      · exact scanEq_handleOpeningTag s _ _
      · exact scanEq_handleOpeningTag s _ _

theorem scanEq_bodyOrUntagged (s : ProcState) (c : Char) :
    ScanEq s (bodyOrUntagged s c) := by
  unfold bodyOrUntagged
  rcases hs : s.tagStack with - | ⟨ctx, rest⟩
  · simp [hs, ScanEq]
  · rcases hc : ctx.config with - | cfg
    · simp [hs, hc, ScanEq]
    · by_cases hb : cfg.hasStreamingCallback = true <;> simp [hs, hc, hb, ScanEq]

theorem scanEq_autoFlushStep (s : ProcState) : ScanEq s (autoFlushStep s) := by
  unfold autoFlushStep
  split
  · exact scanEq_trans (scanEq_processUntagged s s.untaggedContent) (by simp [ScanEq])
  · exact scanEq_refl s

theorem scanEq_procCharCore (s : ProcState) (c : Char) :
    ScanEq s (procCharCore s c).1 := by
  unfold procCharCore
  split
  · split
    · exact scanEq_trans (scanEq_processUntagged s s.untaggedContent) (by simp [ScanEq])
    · simp [ScanEq]
  · split
    · split
      · rcases hp : processCompleteTag { s with currentTag := s.currentTag ++ [c] }
            (String.mk (s.currentTag ++ [c])) with ⟨s2, oe⟩
        have h2 : ScanEq s s2 := by
          have h3 := scanEq_processCompleteTag
            { s with currentTag := s.currentTag ++ [c] } (String.mk (s.currentTag ++ [c]))
          rw [hp] at h3
          exact scanEq_trans (by simp [ScanEq]) h3
        rcases oe with - | e
        · simp only [hp]
          exact scanEq_trans h2 (scanEq_trans (by simp [ScanEq]) (scanEq_autoFlushStep _))
        · simp only [hp]
          exact h2
      · exact scanEq_trans
          (show ScanEq s { s with currentTag := s.currentTag ++ [c] } by simp [ScanEq])
          (scanEq_autoFlushStep _)
    · exact scanEq_trans (scanEq_bodyOrUntagged s c) (scanEq_autoFlushStep _)

/-- After the quote and depth steps, the rest of character processing
leaves the quote and depth tracking fields unchanged. -/
theorem scanEq_processChar (s : ProcState) (c : Char) :
    ScanEq (depthStep (quoteStep s c) c) (processChar s c).1 :=
  scanEq_procCharCore (depthStep (quoteStep s c) c) c

/-- The scanner quote invariant: while inside quotes the json depth is at
least one and the recorded quote character is one of the two quote
characters. -/
def ScannerInv (s : ProcState) : Prop :=
  s.inQuotes = true →
    1 ≤ s.jsonDepth ∧
    (s.quoteChar = String.singleton dquote ∨ s.quoteChar = String.singleton squote)

theorem scannerInv_of_scanEq {a b : ProcState} (h : ScanEq a b) (ha : ScannerInv a) :
    ScannerInv b := by
  obtain ⟨h1, h2, h3⟩ := h
  intro hq
  rw [h2] at hq
  obtain ⟨g1, g2⟩ := ha hq
  refine ⟨h1 ▸ g1, ?_⟩
  rw [h3]
  exact g2

theorem scannerInv_quoteStep (s : ProcState) (c : Char) (h : ScannerInv s) :
    ScannerInv (quoteStep s c) := by
  unfold quoteStep
  by_cases hcond : (c = dquote ∨ c = squote) ∧ 0 < s.jsonDepth
  · rw [if_pos hcond]
    by_cases hq : s.inQuotes = false
    · rw [if_pos hq]
      intro _
      refine ⟨hcond.2, ?_⟩
      rcases hcond.1 with rfl | rfl
      · exact Or.inl rfl
      · exact Or.inr rfl
    · rw [if_neg hq]
      by_cases he : String.singleton c = s.quoteChar
      · rw [if_pos he]
        intro hx
        simp at hx
      · rw [if_neg he]
        exact h
  · rw [if_neg hcond]
    exact h

theorem scannerInv_depthStep (s : ProcState) (c : Char) (h : ScannerInv s) :
    ScannerInv (depthStep s c) := by
  unfold depthStep
  by_cases hq : s.inQuotes = false
  · rw [if_pos hq]
    by_cases h1 : c = obrace
    · rw [if_pos h1]
      intro hx
      simp [hq] at hx
    · rw [if_neg h1]
      by_cases h2 : c = cbrace
      · rw [if_pos h2]
        intro hx
        simp [hq] at hx
      · rw [if_neg h2]
        exact h
  · rw [if_neg hq]
    exact h

theorem scannerInv_processChar (s : ProcState) (c : Char) (h : ScannerInv s) :
    ScannerInv (processChar s c).1 :=
  scannerInv_of_scanEq (scanEq_processChar s c)
    (scannerInv_depthStep (quoteStep s c) c (scannerInv_quoteStep s c h))

theorem scannerInv_processChars (cs : List Char) :
    ∀ s : ProcState, ScannerInv s → ScannerInv (processChars s cs) := by
  induction cs with
  | nil =>
    intro s h
    exact h
  | cons c cs ih =>
    intro s h
    exact ih (processChar s c).1 (scannerInv_processChar s c h)

/-- C10: from any state with quoting off (the initial state and every
reset state), after processing any sequence of characters the scanner
satisfies the quote invariant: quoting on implies json depth at least one
and a recorded quote character; consequently at depth zero quoting is
off, a quote character does not toggle quoting, and a tag-opening angle
bracket is detected (tag mode entered). -/
theorem c10_scanner_invariant (s0 : ProcState) (cs : List Char) (q : Char)
    (h0 : s0.inQuotes = false) (hq : q = dquote ∨ q = squote) :
    ScannerInv (processChars s0 cs) ∧
    ((processChars s0 cs).jsonDepth = 0 → (processChars s0 cs).inQuotes = false) ∧
    ((processChars s0 cs).jsonDepth = 0 →
      ((processChar (processChars s0 cs) q).1).inQuotes = false) ∧
    ((processChars s0 cs).jsonDepth = 0 →
      ((processChar (processChars s0 cs) '<').1).inTag = true) := by
  have hinv0 : ScannerInv s0 := by
    intro hx
    rw [h0] at hx
    exact absurd hx (by simp)
  have hinv : ScannerInv (processChars s0 cs) := scannerInv_processChars cs s0 hinv0
  set S := processChars s0 cs with hS
  have h2 : S.jsonDepth = 0 → S.inQuotes = false := by
    intro hd
    cases hx : S.inQuotes
    · rfl
    · have h3 := (hinv hx).1
      omega
  refine ⟨hinv, h2, ?_, ?_⟩
  · intro hd
    have hqf := h2 hd
    have hqs : quoteStep S q = S := by
      unfold quoteStep
      rw [if_neg]
      rintro ⟨-, hpos⟩
      omega
    have hqo : ¬ q = obrace := by
      rcases hq with rfl | rfl <;> decide
    have hqc : ¬ q = cbrace := by
      rcases hq with rfl | rfl <;> decide
    have hds : depthStep S q = S := by
      unfold depthStep
      rw [if_pos hqf, if_neg hqo, if_neg hqc]
    have hse := scanEq_processChar S q
    rw [hqs, hds] at hse
    exact hse.2.1.trans hqf
  · intro hd
    have hqf := h2 hd
    have hqs : quoteStep S '<' = S := by
      unfold quoteStep
      rw [if_neg]
      rintro ⟨hc | hc, -⟩ <;> exact absurd hc (by decide)
    have hds : depthStep S '<' = S := by
      unfold depthStep
      rw [if_pos hqf, if_neg (by decide), if_neg (by decide)]
    show ((procCharCore (depthStep (quoteStep S '<') '<') '<').1).inTag = true
    rw [hqs, hds]
    unfold procCharCore
    rw [if_pos ⟨rfl, hqf, hd⟩]
    split <;> rfl

/-- Witness for c10_scanner_invariant on a concrete character stream. -/
theorem c10_witness :
    ScannerInv (processChars (initState []) "<t>x".data) ∧
    ((processChars (initState []) "<t>x".data).jsonDepth = 0 →
      (processChars (initState []) "<t>x".data).inQuotes = false) ∧
    ((processChars (initState []) "<t>x".data).jsonDepth = 0 →
      ((processChar (processChars (initState []) "<t>x".data) dquote).1).inQuotes = false) ∧
    ((processChars (initState []) "<t>x".data).jsonDepth = 0 →
      ((processChar (processChars (initState []) "<t>x".data) '<').1).inTag = true) :=
  c10_scanner_invariant (initState []) "<t>x".data dquote rfl (Or.inl rfl)

/-- C2: while an open registered tag is collecting content (not inside a
tag token) and the json depth is positive, the characters left-angle and
right-angle do not trigger tag detection: processing one raises no error,
leaves tag mode off and the token buffer, depth, quoting and untagged
buffer unchanged, and appends the character verbatim to the content of
the innermost open tag, so the handler receives it unchanged at close. -/
theorem c2_json_body_verbatim (s : ProcState) (ctx : TagContext)
    (rest : List TagContext) (c : Char)
    (hstk : s.tagStack = ctx :: rest) (hin : s.inTag = false)
    (hd : 1 ≤ s.jsonDepth) (hc : c = '<' ∨ c = '>')
    (hfl : s.untaggedContent.length ≤ s.autoProcessThreshold) :
    (processChar s c).2 = none ∧
    (processChar s c).1.inTag = false ∧
    (processChar s c).1.currentTag = s.currentTag ∧
    (processChar s c).1.tagStack = { ctx with content := ctx.content ++ [c] } :: rest ∧
    (processChar s c).1.jsonDepth = s.jsonDepth ∧
    (processChar s c).1.inQuotes = s.inQuotes ∧
    (processChar s c).1.quoteChar = s.quoteChar ∧
    (processChar s c).1.untaggedContent = s.untaggedContent := by
  have hq : quoteStep s c = s := by
    unfold quoteStep
    rw [if_neg]
    rintro ⟨h1 | h1, -⟩ <;> rcases hc with rfl | rfl <;> exact absurd h1 (by decide)
  have hdep : depthStep s c = s := by
    have h1 : ¬ c = obrace := by
      rcases hc with rfl | rfl <;> decide
    have h2 : ¬ c = cbrace := by
      rcases hc with rfl | rfl <;> decide
    unfold depthStep
    by_cases hiq : s.inQuotes = false
    · rw [if_pos hiq, if_neg h1, if_neg h2]
    · rw [if_neg hiq]
  have hcond : ¬(c = '<' ∧ s.inQuotes = false ∧ s.jsonDepth = 0) := by
    rintro ⟨-, -, h0⟩
    omega
  have hpc : processChar s c = (autoFlushStep (bodyOrUntagged s c), none) := by
    unfold processChar
    rw [hq, hdep]
    unfold procCharCore
    rw [if_neg hcond, if_neg (by simp [hin])]
  have hfields : (bodyOrUntagged s c).inTag = s.inTag ∧
      (bodyOrUntagged s c).currentTag = s.currentTag ∧
      (bodyOrUntagged s c).tagStack = { ctx with content := ctx.content ++ [c] } :: rest ∧
      (bodyOrUntagged s c).jsonDepth = s.jsonDepth ∧
      (bodyOrUntagged s c).inQuotes = s.inQuotes ∧
      (bodyOrUntagged s c).quoteChar = s.quoteChar ∧
      (bodyOrUntagged s c).untaggedContent = s.untaggedContent ∧
      (bodyOrUntagged s c).autoProcessUntagged = s.autoProcessUntagged ∧
      (bodyOrUntagged s c).autoProcessThreshold = s.autoProcessThreshold := by
    unfold bodyOrUntagged
    rcases hcc : ctx.config with - | cfg
    · simp [hstk, hcc]
    · by_cases hb2 : cfg.hasStreamingCallback = true <;> simp [hstk, hcc, hb2]
  obtain ⟨f1, f2, f3, f4, f5, f6, f7, f8, f9⟩ := hfields
  have hafs : autoFlushStep (bodyOrUntagged s c) = bodyOrUntagged s c := by
    unfold autoFlushStep
    rw [if_neg]
    rintro ⟨-, hlt⟩
    rw [f7, f9] at hlt
    omega
  rw [hpc, hafs]
  exact ⟨rfl, f1.trans hin, f2, f3, f4, f5, f6, f7⟩

/-- Witness for c2_json_body_verbatim: a left-angle inside a body at json
depth one is appended to the open tag content without entering tag
mode. -/
theorem c2_witness :
    (processChar { initState [] with
        tagStack := [{ name := "t", attributes := [], content := [],
                       config := some basicConfig }],
        jsonDepth := 1 } '<').2 = none ∧
    (processChar { initState [] with
        tagStack := [{ name := "t", attributes := [], content := [],
                       config := some basicConfig }],
        jsonDepth := 1 } '<').1.inTag = false ∧
    (processChar { initState [] with
        tagStack := [{ name := "t", attributes := [], content := [],
                       config := some basicConfig }],
        jsonDepth := 1 } '<').1.currentTag
      = ({ initState [] with
        tagStack := [{ name := "t", attributes := [], content := [],
                       config := some basicConfig }],
        jsonDepth := 1 } : ProcState).currentTag ∧
    (processChar { initState [] with
        tagStack := [{ name := "t", attributes := [], content := [],
                       config := some basicConfig }],
        jsonDepth := 1 } '<').1.tagStack
      = [{ name := "t", attributes := [], content := [] ++ ['<'],
           config := some basicConfig }] ∧
    (processChar { initState [] with
        tagStack := [{ name := "t", attributes := [], content := [],
                       config := some basicConfig }],
        jsonDepth := 1 } '<').1.jsonDepth
      = ({ initState [] with
        tagStack := [{ name := "t", attributes := [], content := [],
                       config := some basicConfig }],
        jsonDepth := 1 } : ProcState).jsonDepth ∧
    (processChar { initState [] with
        tagStack := [{ name := "t", attributes := [], content := [],
                       config := some basicConfig }],
        jsonDepth := 1 } '<').1.inQuotes
      = ({ initState [] with
        tagStack := [{ name := "t", attributes := [], content := [],
                       config := some basicConfig }],
        jsonDepth := 1 } : ProcState).inQuotes ∧
    (processChar { initState [] with
        tagStack := [{ name := "t", attributes := [], content := [],
                       config := some basicConfig }],
        jsonDepth := 1 } '<').1.quoteChar
      = ({ initState [] with
        tagStack := [{ name := "t", attributes := [], content := [],
                       config := some basicConfig }],
        jsonDepth := 1 } : ProcState).quoteChar ∧
    (processChar { initState [] with
        tagStack := [{ name := "t", attributes := [], content := [],
                       config := some basicConfig }],
        jsonDepth := 1 } '<').1.untaggedContent
      = ({ initState [] with
        tagStack := [{ name := "t", attributes := [], content := [],
                       config := some basicConfig }],
        jsonDepth := 1 } : ProcState).untaggedContent :=
  c2_json_body_verbatim _ _ [] '<' rfl rfl (by decide) (Or.inl rfl) (by decide)

/-- A stripped character list is empty exactly when every character is
whitespace. -/
theorem pyStrip_eq_nil_iff (l : List Char) :
    pyStrip l = [] ↔ ∀ c ∈ l, pyIsSpace c = true := by
  unfold pyStrip
  constructor
  · intro h c hc
    rw [List.reverse_eq_nil_iff, List.dropWhile_eq_nil_iff] at h
    by_cases hcd : c ∈ l.dropWhile pyIsSpace
    · exact h c (List.mem_reverse.mpr hcd)
    · have hct : c ∈ l.takeWhile pyIsSpace := by
        have happ := List.takeWhile_append_dropWhile (p := pyIsSpace) (l := l)
        rw [← happ] at hc
        rcases List.mem_append.mp hc with h1 | h1
        · exact h1
        · exact absurd h1 hcd
      exact List.mem_takeWhile_imp hct
  · intro h
    rw [List.reverse_eq_nil_iff, List.dropWhile_eq_nil_iff]
    intro x hx
    apply h
    have hx2 := List.mem_reverse.mp hx
    have happ := List.takeWhile_append_dropWhile (p := pyIsSpace) (l := l)
    rw [← happ]
    exact List.mem_append.mpr (Or.inr hx2)

/-- For a token that is neither empty nor whitespace-only and whose
characters raise no error, process_token is exactly the character run. -/
theorem processTokenSt_eq_runChars (s : ProcState) (t : String)
    (h : ¬ pyStrip t.data = []) (hok : (runChars s t.data).2 = none) :
    processTokenSt s t = (runChars s t.data).1 := by
  have hte : ¬ t = "" := by
    rintro rfl
    exact h rfl
  unfold processTokenSt
  rw [if_neg hte, if_neg h]
  rcases hr : runChars s t.data with ⟨s1, oe⟩
  rw [hr] at hok
  rcases oe with - | e2
  · simp [hr]
  · exact absurd hok (by simp)

/-- Processing a list of non-whitespace tokens whose concatenation runs
without error equals the single character run over the concatenation. -/
theorem processTokensSt_flatten (ts : List String) : ∀ s : ProcState,
    (∀ t ∈ ts, ¬ pyStrip t.data = []) →
    (runChars s ((ts.map String.data).flatten)).2 = none →
    processTokensSt s ts = (runChars s ((ts.map String.data).flatten)).1 := by
  induction ts with
  | nil =>
    intro s _ _
    rfl
  | cons t ts ih =>
    intro s hch hwf
    have hflat : (((t :: ts).map String.data)).flatten
        = t.data ++ ((ts.map String.data)).flatten := by
      simp
    rw [hflat] at hwf ⊢
    have hpre : (runChars s t.data).2 = none := by
      rcases ho : (runChars s t.data).2 with - | e
      · rfl
      · rw [runChars_append_some t.data s _ e ho, ho] at hwf
        exact absurd hwf (by simp)
    rw [runChars_append_none t.data s _ hpre] at hwf ⊢
    have ht : processTokenSt s t = (runChars s t.data).1 :=
      processTokenSt_eq_runChars s t (hch t (by simp)) hpre
    show processTokensSt (processTokenSt s t) ts = _
    rw [ht]
    exact ih (runChars s t.data).1 (fun u hu => hch u (by simp [hu])) hwf

/-- Counterexample to C1 as stated: splitting the well-formed input
consisting of an open tag, a space of body content and the closing tag at
the space produces a whitespace-only chunk, which process_token silently
skips, so the handler receives empty content instead of the space: the
handler invocation sequences differ between chunked and whole-string
feeding. -/
theorem c1_counterexample :
    String.join ["<a>", " ", "</a>"] = "<a> </a>" ∧
    (processTokensSt (initState [("a", basicConfig)]) ["<a>", " ", "</a>"]).trace
      ≠ (processTokenSt (initState [("a", basicConfig)]) "<a> </a>").trace := by
  constructor
  · decide
  · decide

/-- C1 amended: feed-order invariance holds for every split whose chunks
each contain at least one non-whitespace character (whitespace-only and
empty chunks are silently dropped by the process_token guard and can
change the result), provided the whole input processes without a raised
error: then feeding the chunks through process_token one by one yields
exactly the same state - in particular the same sequence of handler
invocations - as feeding the whole string at once. -/
theorem c1_feed_order_amended (s : ProcState) (ts : List String) (whole : String)
    (hsplit : whole.data = ((ts.map String.data)).flatten)
    (hchunks : ∀ t ∈ ts, ¬ pyStrip t.data = [])
    (hwf : (runChars s whole.data).2 = none) :
    processTokensSt s ts = processTokenSt s whole := by
  rcases ts with - | ⟨t, ts⟩
  · rcases whole with ⟨wdata⟩
    simp only [List.map_nil, List.flatten_nil] at hsplit
    have hw : String.mk wdata = "" := by
      rw [show wdata = ([] : List Char) from hsplit]
    rw [hw]
    show s = processTokenSt s ""
    unfold processTokenSt
    rw [if_pos rfl]
  · have hne : ¬ pyStrip whole.data = [] := by
      intro hnil
      rw [pyStrip_eq_nil_iff] at hnil
      apply hchunks t (by simp)
      rw [pyStrip_eq_nil_iff]
      intro c hc
      apply hnil
      rw [hsplit]
      exact List.mem_flatten.mpr ⟨t.data, by simp, hc⟩
    have h1 := processTokensSt_flatten (t :: ts) s hchunks (by rw [← hsplit]; exact hwf)
    rw [← hsplit] at h1
    rw [h1, processTokenSt_eq_runChars s whole hne hwf]

/-- Witness for c1_feed_order_amended: a split that cuts through the
middle of a tag token still produces the same handler invocation. -/
theorem c1_witness :
    processTokensSt (initState [("a", basicConfig)]) ["<a", ">x</a>"]
      = processTokenSt (initState [("a", basicConfig)]) "<a>x</a>" :=
  c1_feed_order_amended (initState [("a", basicConfig)]) ["<a", ">x</a>"] "<a>x</a>"
    (by decide) (by decide) (by decide)
